import Mathlib

/-!
Shallow embedding of the LogsProcessor module (guild log notifications):
the Discord-event normalizer, the audit-log correlator, the channel
resolver and the renderer dispatch tables, together with proofs of the
behavioural properties stated about them.

Entity identifiers (snowflakes) are modelled as naturals; the action and
event names stay the literal strings of the source. Asynchronous calls
that can reject (the member fetch, the audit-log query) are modelled with
an explicit outcome: an Except value whose error constructor stands for a
rejected promise propagating out of the handler.
-/

namespace Cognitum

/-- A platform user: identifier, username and the rendered tag. -/
structure User where
  id : Nat
  username : String
  tag : String
  deriving DecidableEq

/-- A guild channel from the channel cache: identifier and channel type
(the string the source compares against "text"). -/
structure Channel where
  id : Nat
  type : String
  deriving DecidableEq

/-- One administrative audit-log entry: action name, target type, the
target identifier, the executing user and an optional free-text reason. -/
structure AuditEntry where
  action : String
  targetType : String
  targetId : Nat
  executor : User
  reason : Option String
  deriving DecidableEq

/-- A guild: identifier, whether the bot member has the VIEW_AUDIT_LOG
permission, the outcome of fetching the audit log (error = the fetch
promise rejects; ok = the entry list, newest first), and the channel
cache. -/
structure Guild where
  id : Nat
  meHasViewAuditLog : Bool
  auditLogFetch : Except Unit (List AuditEntry)
  channels : List Channel

/-- A guild member: identifier, optional nickname, the underlying user,
the owning guild, and whether the object arrived as an incomplete
reference (the partial flag of the source, which forces a fetch). -/
structure GuildMember where
  id : Nat
  nickname : Option String
  user : User
  guild : Guild
  incomplete : Bool

/-- The per-guild notification configuration record (the GuildModel row
read by resolveChannel): master flag, one flag per base event kind and
the two channel columns (none = NULL, no channel configured). -/
structure GuildConfig where
  logs_enabled : Bool
  logs_join_event : Bool
  logs_left_event : Bool
  logs_rename_event : Bool
  logs_kick_event : Bool
  logs_ban_event : Bool
  logs_msgdelete_event : Bool
  logs_msgimage_event : Bool
  logs_msgupdate_event : Bool
  logs_public_channel : Option Nat
  logs_private_channel : Option Nat
  deriving DecidableEq

/-- Dynamic column access for the flag columns, as in the source
expression guildInstance[logs_eventName_event]; an unknown key reads an
absent property (none, which is falsy in the guard). -/
def GuildConfig.eventFlag (c : GuildConfig) : String → Option Bool
  | "join" => some c.logs_join_event
  | "left" => some c.logs_left_event
  | "rename" => some c.logs_rename_event
  | "kick" => some c.logs_kick_event
  | "ban" => some c.logs_ban_event
  | "msgdelete" => some c.logs_msgdelete_event
  | "msgimage" => some c.logs_msgimage_event
  | "msgupdate" => some c.logs_msgupdate_event
  | _ => none

/-- Modelled from the spec: the markdown control characters guarded
against by the escaping helper (the helper itself lives in the Utils
module, which is not among the sources). -/
def markdownControlChars : List Char :=
  ['\\', '*', '_', '~', '|', '>', Char.ofNat 96]

/-- Modelled from the spec: escaping of one character — a markdown
control character is prefixed with a backslash, anything else passes
through unchanged. -/
def escapeChar (c : Char) : List Char :=
  if c ∈ markdownControlChars then ['\\', c] else [c]

/-- Modelled from the spec: escaping of a character list, one character
at a time. -/
def escapeChars : List Char → List Char
  | [] => []
  | c :: cs => escapeChar c ++ escapeChars cs

/-- Modelled from the spec: the escapeMarkdown helper imported from the
Utils module (absent from the sources) — escapes every markdown control
character of the string so user-controlled names render literally. -/
def escapeMarkdown (s : String) : String :=
  String.mk (escapeChars s.data)

/-- Postfix appended to the ban and unban event names when an audit entry
was found (static field EVENT_NAME_AUDIT_POSTFIX). -/
def EVENT_NAME_AUDIT_POSTFIX : String := "Audit"

/-- Renderer for the join event. -/
def renderJoin (member : GuildMember) : String :=
  ":inbox_tray: [JOIN] | " ++ escapeMarkdown ("ID: " ++ toString member.id)
    ++ " | " ++ escapeMarkdown member.user.tag

/-- Renderer for the left event. -/
def renderLeft (member : GuildMember) : String :=
  ":outbox_tray: [LEAVE] | " ++ escapeMarkdown ("ID: " ++ toString member.id)
    ++ " | " ++ escapeMarkdown member.user.tag

/-- Renderer for the rename event: previous and next display name, each
being the nickname when set and the username otherwise. -/
def renderRename (prev next : GuildMember) : String :=
  ":abc: [RENAME] | " ++ escapeMarkdown ("ID: " ++ toString prev.id) ++ " | "
    ++ escapeMarkdown (prev.nickname.getD prev.user.username) ++ " → "
    ++ escapeMarkdown (next.nickname.getD next.user.username)

/-- Renderer for the bare ban event. -/
def renderBan (_guild : Guild) (user : User) : String :=
  ":hammer: [BAN] | " ++ escapeMarkdown ("ID: " ++ toString user.id)
    ++ " | " ++ escapeMarkdown user.tag

/-- The reason fragment shared by the banAudit and kick renderers: the
source tests entry.reason?.length for truthiness, so a missing reason and
an empty reason both fall to the no-reason marker. -/
def reasonClause (reason : Option String) : String :=
  match reason with
  | some r => if r.length ≠ 0 then " reason " ++ escapeMarkdown r else " no reason"
  | none => " no reason"

/-- Renderer for the ban event enriched with an audit entry. -/
def renderBanAudit (_guild : Guild) (user : User) (entry : AuditEntry) : String :=
  ":hammer: [BAN] by " ++ escapeMarkdown entry.executor.tag ++ " with"
    ++ reasonClause entry.reason
    ++ " | " ++ escapeMarkdown ("ID: " ++ toString user.id) ++ " | " ++ escapeMarkdown user.tag

/-- Renderer for the bare unban event. -/
def renderUnban (_guild : Guild) (user : User) : String :=
  ":peace: [UNBAN] | " ++ escapeMarkdown ("ID: " ++ toString user.id)
    ++ " | " ++ escapeMarkdown user.tag

/-- Renderer for the unban event enriched with an audit entry: the source
renders the executor only — no reason fragment appears in this line. -/
def renderUnbanAudit (_guild : Guild) (user : User) (entry : AuditEntry) : String :=
  ":peace: [UNBAN] by " ++ escapeMarkdown entry.executor.tag
    ++ " | " ++ escapeMarkdown ("ID: " ++ toString user.id) ++ " | " ++ escapeMarkdown user.tag

/-- Renderer for the kick event (always carries an audit entry). -/
def renderKick (member : GuildMember) (entry : AuditEntry) : String :=
  ":boot: [KICK] by " ++ escapeMarkdown entry.executor.tag ++ " with"
    ++ reasonClause entry.reason
    ++ " | " ++ escapeMarkdown ("ID: " ++ toString member.id) ++ " "
    ++ "| " ++ escapeMarkdown member.user.tag

/-- The payload shapes the internal emitter carries: a member, a pair of
member snapshots, a member with an audit entry, a guild with a user, or a
guild with a user and an audit entry. -/
inductive EventArgs where
  | member (m : GuildMember)
  | memberPair (prev curr : GuildMember)
  | memberEntry (m : GuildMember) (entry : AuditEntry)
  | guildUser (g : Guild) (u : User)
  | guildUserEntry (g : Guild) (u : User) (entry : AuditEntry)

/-- An emission on the internal emitter: the event name together with its
argument payload. -/
abbrev Emission := String × EventArgs

/-- The eventMessageRenderer table, in the key order of the source object
literal; each handler destructures its expected payload shape and fails
on any other shape (in the source such a call would throw on a property
access). -/
def eventMessageRenderer : List (String × (EventArgs → Option String)) :=
  [("join", fun a => match a with | .member m => some (renderJoin m) | _ => none),
   ("left", fun a => match a with | .member m => some (renderLeft m) | _ => none),
   ("rename", fun a => match a with | .memberPair p c => some (renderRename p c) | _ => none),
   ("ban", fun a => match a with | .guildUser g u => some (renderBan g u) | _ => none),
   ("banAudit", fun a => match a with | .guildUserEntry g u e => some (renderBanAudit g u e) | _ => none),
   ("unban", fun a => match a with | .guildUser g u => some (renderUnban g u) | _ => none),
   ("unbanAudit", fun a => match a with | .guildUserEntry g u e => some (renderUnbanAudit g u e) | _ => none),
   ("kick", fun a => match a with | .memberEntry m e => some (renderKick m e) | _ => none)]

/-- The guildResolver table, in the key order of the source object
literal: join, left, rename and kick read the guild off the member given
first; the ban family returns the guild argument given first. -/
def guildResolver : List (String × (EventArgs → Option Guild)) :=
  [("join", fun a => match a with | .member m => some m.guild | _ => none),
   ("left", fun a => match a with | .member m => some m.guild | _ => none),
   ("rename", fun a => match a with | .memberPair p _ => some p.guild | _ => none),
   ("ban", fun a => match a with | .guildUser g _ => some g | _ => none),
   ("banAudit", fun a => match a with | .guildUserEntry g _ _ => some g | _ => none),
   ("unban", fun a => match a with | .guildUser g _ => some g | _ => none),
   ("unbanAudit", fun a => match a with | .guildUserEntry g _ _ => some g | _ => none),
   ("kick", fun a => match a with | .memberEntry m _ => some m.guild | _ => none)]

/-- Property lookup on a table object: the value stored under the key,
none when the key is absent. -/
def lookupHandler {α : Type} (table : List (String × α)) (eventName : String) : Option α :=
  (table.find? (fun p => p.1 == eventName)).map Prod.snd

/-- The event names the processor subscribes to: handleLogEvents iterates
the keys of the eventMessageRenderer table. -/
def registeredEventNames : List String :=
  eventMessageRenderer.map Prod.fst

/-- The endsWith test of the source, modelled on the character list. -/
def stringEndsWith (s post : String) : Bool :=
  post.data.isSuffixOf s.data

/-- The slice(0, -n) call of the source, modelled on the character list:
drop the last n characters. -/
def stringDropRight (s : String) (n : Nat) : String :=
  String.mk (s.data.take (s.data.length - n))

/-- The settings-key collapse performed inside resolveChannel: strip the
Audit postfix when present, then map unban onto ban so both directions
share one flag. -/
def collapseSettingsKey (eventName : String) : String :=
  let base :=
    if stringEndsWith eventName EVENT_NAME_AUDIT_POSTFIX then
      stringDropRight eventName EVENT_NAME_AUDIT_POSTFIX.length
    else eventName
  if base == "unban" then "ban" else base

/-- The keys routed to the private channel column by resolveChannel. -/
def privateChannelEventNames : List String := ["msgdelete", "msgimage", "msgupdate"]

/-- resolveChannel: resolve the guild through the guildResolver table (an
absent key or a mismatched payload throws in the source — modelled as
error), collapse the settings key, pick the channel column, reject with
none when the master flag, the event flag or the channel column is falsy,
and otherwise look the configured identifier up in the channel cache
(none when it is no longer there). The findOrCreate read of the
configuration row is passed in as guildInstance. -/
def resolveChannel (eventName : String) (args : EventArgs) (guildInstance : GuildConfig) :
    Except Unit (Option Channel) :=
  match lookupHandler guildResolver eventName with
  | none => Except.error ()
  | some resolve =>
    match resolve args with
    | none => Except.error ()
    | some guild =>
      let eventKey := collapseSettingsKey eventName
      let channelType := if eventKey ∈ privateChannelEventNames then "private" else "public"
      let flagVal := guildInstance.eventFlag eventKey
      let channelId :=
        if channelType == "private" then guildInstance.logs_private_channel
        else guildInstance.logs_public_channel
      if guildInstance.logs_enabled = false ∨ flagVal ≠ some true ∨ channelId = none then
        Except.ok none
      else
        Except.ok (guild.channels.find? (fun ch => some ch.id == channelId))

/-- handleEvent: resolve the channel (returning quietly on none), render
the message through the eventMessageRenderer table (a mismatched payload
throws in the source — modelled as error), drop the message silently when
the channel is not a text channel, and otherwise send: the result some
(channel, line) is the one message sent, none is no message. -/
def handleEvent (eventName : String) (args : EventArgs) (guildInstance : GuildConfig) :
    Except Unit (Option (Channel × String)) :=
  match resolveChannel eventName args guildInstance with
  | Except.error e => Except.error e
  | Except.ok none => Except.ok none
  | Except.ok (some channel) =>
    match (lookupHandler eventMessageRenderer eventName).bind (fun render => render args) with
    | none => Except.error ()
    | some logMessage =>
      if channel.type ≠ "text" then Except.ok none
      else Except.ok (some (channel, logMessage))

/-- The three audit actions the member-remove correlation searches for. -/
def memberRemoveActions : List String := ["MEMBER_KICK", "MEMBER_BAN_ADD", "MEMBER_BAN_REMOVE"]

/-- resolveMemberRemove: fetch an incomplete member first (a rejected
fetch propagates as an error and nothing is emitted), emit left at once
without the VIEW_AUDIT_LOG permission, otherwise query the audit log (a
rejected query propagates as an error) and take the first entry among
kick, ban-add and ban-remove targeting this member: no entry emits left,
a kick entry emits kick carrying it, and a ban entry emits nothing.
fetchSucceeds is the outcome of the member fetch. -/
def resolveMemberRemove (member : GuildMember) (fetchSucceeds : Bool) :
    Except Unit (Option Emission) :=
  if member.incomplete && !fetchSucceeds then Except.error ()
  else if member.guild.meHasViewAuditLog = false then
    Except.ok (some ("left", EventArgs.member member))
  else
    match member.guild.auditLogFetch with
    | Except.error e => Except.error e
    | Except.ok entries =>
      match entries.find? (fun entry =>
          memberRemoveActions.contains entry.action
            && (entry.targetType == "USER" && entry.targetId == member.id)) with
      | none => Except.ok (some ("left", EventArgs.member member))
      | some entry =>
        if entry.action == "MEMBER_KICK" then
          Except.ok (some ("kick", EventArgs.memberEntry member entry))
        else
          Except.ok none

/-- resolveBanManagementEvent: without the VIEW_AUDIT_LOG permission emit
the bare event at once; otherwise query the audit log restricted to the
matching ban action (the type option of fetchAuditLogs, modelled as a
filter of the fetched list; a rejected query propagates as an error) and
search for an entry targeting the user: no entry emits the bare event, an
entry emits the event name with the Audit postfix carrying it. -/
def resolveBanManagementEvent (eventName : String) (guild : Guild) (user : User) :
    Except Unit (Option Emission) :=
  if guild.meHasViewAuditLog = false then
    Except.ok (some (eventName, EventArgs.guildUser guild user))
  else
    let fetchType := "MEMBER_BAN_" ++ (if eventName == "ban" then "ADD" else "REMOVE")
    match guild.auditLogFetch with
    | Except.error e => Except.error e
    | Except.ok allEntries =>
      let entries := allEntries.filter (fun entry => entry.action == fetchType)
      match entries.find? (fun entry => entry.targetType == "USER" && entry.targetId == user.id) with
      | none => Except.ok (some (eventName, EventArgs.guildUser guild user))
      | some entry =>
        Except.ok (some (eventName ++ EVENT_NAME_AUDIT_POSTFIX,
          EventArgs.guildUserEntry guild user entry))

/-- resolveMemberUpdate: emit rename exactly when the nickname changed
between the two snapshots. -/
def resolveMemberUpdate (previousMember currentMember : GuildMember) : Option Emission :=
  if previousMember.nickname ≠ currentMember.nickname then
    some ("rename", EventArgs.memberPair previousMember currentMember)
  else none

/-- The eight internal notification events the normalizer and correlator
can emit, each with the payload its emit call passes. -/
inductive PipelineEvent where
  | join (m : GuildMember)
  | left (m : GuildMember)
  | rename (prev curr : GuildMember)
  | kick (m : GuildMember) (entry : AuditEntry)
  | ban (g : Guild) (u : User)
  | banAudit (g : Guild) (u : User) (entry : AuditEntry)
  | unban (g : Guild) (u : User)
  | unbanAudit (g : Guild) (u : User) (entry : AuditEntry)

/-- The emitter event name of a pipeline event. -/
def PipelineEvent.name : PipelineEvent → String
  | .join _ => "join"
  | .left _ => "left"
  | .rename _ _ => "rename"
  | .kick _ _ => "kick"
  | .ban _ _ => "ban"
  | .banAudit _ _ _ => "banAudit"
  | .unban _ _ => "unban"
  | .unbanAudit _ _ _ => "unbanAudit"

/-- The emitter payload of a pipeline event. -/
def PipelineEvent.args : PipelineEvent → EventArgs
  | .join m => .member m
  | .left m => .member m
  | .rename p c => .memberPair p c
  | .kick m e => .memberEntry m e
  | .ban g u => .guildUser g u
  | .banAudit g u e => .guildUserEntry g u e
  | .unban g u => .guildUser g u
  | .unbanAudit g u e => .guildUserEntry g u e

/-- The originating guild of a pipeline event, as the guildResolver table
computes it. -/
def PipelineEvent.originGuild : PipelineEvent → Guild
  | .join m => m.guild
  | .left m => m.guild
  | .rename p _ => p.guild
  | .kick m _ => m.guild
  | .ban g _ => g
  | .banAudit g _ _ => g
  | .unban g _ => g
  | .unbanAudit g _ _ => g

/-- pat occurs contiguously inside s (stated on the character lists, so
the Mathlib infix machinery applies and concrete instances are
decidable). -/
def substringOf (pat s : String) : Prop :=
  pat.data <:+: s.data

instance (pat s : String) : Decidable (substringOf pat s) :=
  List.decidableInfix pat.data s.data

/-- A character list in which every markdown control character is the
escaped payload of a backslash pair: the shape escaping guarantees, under
which no raw control sequence from the input survives unescaped. -/
inductive EscapedForm : List Char → Prop where
  | nil : EscapedForm []
  | plain (c : Char) (cs : List Char) :
      c ∉ markdownControlChars → EscapedForm cs → EscapedForm (c :: cs)
  | escaped (c : Char) (cs : List Char) :
      c ∈ markdownControlChars → EscapedForm cs → EscapedForm ('\\' :: c :: cs)

/-- The delivery conditions of the claim, written from the spec for
comparison against handleEvent: master flag on, collapsed event flag on,
a channel configured for the resolved category (the public column for
every pipeline event kind), the identifier resolving to a live channel of
the guild, and that channel being a text channel. -/
def deliveryConditions (ev : PipelineEvent) (cfg : GuildConfig) : Prop :=
  cfg.logs_enabled = true
    ∧ cfg.eventFlag (collapseSettingsKey ev.name) = some true
    ∧ cfg.logs_public_channel ≠ none
    ∧ ∃ ch, ev.originGuild.channels.find? (fun c => some c.id == cfg.logs_public_channel) = some ch
        ∧ ch.type = "text"

/-- Sample user for concrete witnesses. -/
def uW : User := ⟨2, "user", "user#0002"⟩

/-- Sample executor user for concrete witnesses. -/
def modW : User := ⟨3, "mod", "Mod#1"⟩

/-- Sample text channel for concrete witnesses. -/
def chW : Channel := ⟨5, "text"⟩

/-- Sample kick audit entry targeting uW, with a reason. -/
def eKickW : AuditEntry := ⟨"MEMBER_KICK", "USER", 2, modW, some "spam"⟩

/-- Sample ban-add audit entry targeting uW, without a reason. -/
def eBanW : AuditEntry := ⟨"MEMBER_BAN_ADD", "USER", 2, modW, none⟩

/-- Sample ban-remove audit entry targeting uW, with a reason. -/
def eUnbanW : AuditEntry := ⟨"MEMBER_BAN_REMOVE", "USER", 2, modW, some "spam"⟩

/-- Sample guild with audit access and a kick entry in the log. -/
def gKickW : Guild := ⟨1, true, Except.ok [eKickW], [chW]⟩

/-- Sample guild with audit access and a ban entry in the log. -/
def gBanW : Guild := ⟨1, true, Except.ok [eBanW], [chW]⟩

/-- Sample guild with audit access and an empty log. -/
def gEmptyW : Guild := ⟨1, true, Except.ok [], [chW]⟩

/-- Sample guild whose audit-log query rejects. -/
def gFailW : Guild := ⟨1, true, Except.error (), [chW]⟩

/-- Sample guild without the VIEW_AUDIT_LOG permission. -/
def gNoPermW : Guild := ⟨1, false, Except.ok [], [chW]⟩

/-- Sample complete member of gKickW. -/
def mKickW : GuildMember := ⟨2, none, uW, gKickW, false⟩

/-- Sample complete member of gFailW. -/
def mFailW : GuildMember := ⟨2, none, uW, gFailW, false⟩

/-- Sample complete member of gNoPermW. -/
def mNoPermW : GuildMember := ⟨2, none, uW, gNoPermW, false⟩

/-- Sample complete member of gBanW. -/
def mBanW : GuildMember := ⟨2, none, uW, gBanW, false⟩

/-- Sample configuration with everything enabled and the public channel
pointing at chW. -/
def cfgAllOnW : GuildConfig :=
  ⟨true, true, true, true, true, true, true, true, true, some 5, none⟩

/-- Sample incomplete member reference (fetch required). -/
def mIncW : GuildMember := ⟨2, none, uW, gKickW, true⟩

/-- Sample complete member of gEmptyW. -/
def mEmptyW : GuildMember := ⟨2, none, uW, gEmptyW, false⟩

end Cognitum

namespace Cognitum

/-- Helper: a string occurs inside another when the surrounding pieces
are exhibited explicitly. -/
lemma substringOf_intro (pat pre post s : String) (h : s = pre ++ pat ++ post) :
    substringOf pat s :=
  ⟨pre.data, post.data, by rw [h]; simp [String.data_append]⟩

/-- Helper: substring introduction when pat is a suffix of s. -/
lemma substringOf_intro2 (pat pre s : String) (h : s = pre ++ pat) :
    substringOf pat s :=
  ⟨pre.data, [], by rw [h]; simp [String.data_append]⟩

/-- Helper: the member-fetch guard of resolveMemberRemove, restated at the
Bool level. -/
lemma notFetchFail {m : GuildMember} {f : Bool} (hfetch : ¬(m.incomplete = true ∧ f = false)) :
    ¬((m.incomplete && !f) = true) := by
  simpa [Bool.and_eq_true, Bool.not_eq_true'] using hfetch

end Cognitum

namespace Cognitum

/-- C5: the settings-key collapse sends all four ban-family kinds (ban,
banAudit, unban, unbanAudit) to the single ban flag key, and applying the
collapse to the collapsed form of any of the eight event kinds leaves it
unchanged (idempotence on the event taxonomy). -/
theorem settings_key_collapse :
    (collapseSettingsKey "ban" = "ban" ∧ collapseSettingsKey "banAudit" = "ban"
      ∧ collapseSettingsKey "unban" = "ban" ∧ collapseSettingsKey "unbanAudit" = "ban")
    ∧ (collapseSettingsKey (collapseSettingsKey "join") = collapseSettingsKey "join"
      ∧ collapseSettingsKey (collapseSettingsKey "left") = collapseSettingsKey "left"
      ∧ collapseSettingsKey (collapseSettingsKey "rename") = collapseSettingsKey "rename"
      ∧ collapseSettingsKey (collapseSettingsKey "kick") = collapseSettingsKey "kick"
      ∧ collapseSettingsKey (collapseSettingsKey "ban") = collapseSettingsKey "ban"
      ∧ collapseSettingsKey (collapseSettingsKey "banAudit") = collapseSettingsKey "banAudit"
      ∧ collapseSettingsKey (collapseSettingsKey "unban") = collapseSettingsKey "unban"
      ∧ collapseSettingsKey (collapseSettingsKey "unbanAudit")
          = collapseSettingsKey "unbanAudit") := by
  decide

/-- C2: when the member-remove correlation finds a matching audit entry
whose action is MEMBER_KICK targeting the member, the emitted event is
kick carrying that entry, and the rendered kick line contains the escaped
executor tag together with the escaped non-empty reason, or the explicit
no-reason marker when the entry carries none. -/
theorem kick_resolution (m : GuildMember) (f : Bool) (entries : List AuditEntry) (e : AuditEntry)
    (hfetch : ¬(m.incomplete = true ∧ f = false))
    (hperm : m.guild.meHasViewAuditLog = true)
    (hlog : m.guild.auditLogFetch = Except.ok entries)
    (hfind : entries.find? (fun entry =>
        memberRemoveActions.contains entry.action
          && (entry.targetType == "USER" && entry.targetId == m.id)) = some e)
    (hkick : e.action = "MEMBER_KICK") :
    resolveMemberRemove m f = Except.ok (some ("kick", EventArgs.memberEntry m e))
    ∧ substringOf (escapeMarkdown e.executor.tag) (renderKick m e)
    ∧ (∀ r, e.reason = some r → r.length ≠ 0 → substringOf (escapeMarkdown r) (renderKick m e))
    ∧ ((e.reason = none ∨ e.reason = some "") → substringOf " no reason" (renderKick m e)) := by
  refine ⟨?_, ?_, ?_, ?_⟩
  · unfold resolveMemberRemove
    rw [if_neg (notFetchFail hfetch), if_neg (by simp [hperm])]
    simp only [hlog, hfind, hkick]
    simp
  · exact substringOf_intro _ ":boot: [KICK] by "
      (" with" ++ reasonClause e.reason ++ " | " ++ escapeMarkdown ("ID: " ++ toString m.id)
        ++ " " ++ "| " ++ escapeMarkdown m.user.tag) _
      (by simp only [renderKick, String.append_assoc])
  · intro r hr hlen
    refine substringOf_intro _ (":boot: [KICK] by " ++ escapeMarkdown e.executor.tag
        ++ " with" ++ " reason ")
      (" | " ++ escapeMarkdown ("ID: " ++ toString m.id) ++ " " ++ "| "
        ++ escapeMarkdown m.user.tag) _ ?_
    simp only [renderKick, reasonClause, hr]
    rw [if_pos hlen]
    simp only [String.append_assoc]
  · intro hr
    refine substringOf_intro _ (":boot: [KICK] by " ++ escapeMarkdown e.executor.tag ++ " with")
      (" | " ++ escapeMarkdown ("ID: " ++ toString m.id) ++ " " ++ "| "
        ++ escapeMarkdown m.user.tag) _ ?_
    rcases hr with hr | hr
    · simp only [renderKick, reasonClause, hr, String.append_assoc]
    · simp only [renderKick, reasonClause, hr]
      rw [if_neg (by decide)]
      simp only [String.append_assoc]

/-- C2 witness: the kick resolution theorem applied to a concrete member
whose guild log holds one matching kick entry with reason spam. -/
theorem kick_resolution_witness :
    resolveMemberRemove mKickW true = Except.ok (some ("kick", EventArgs.memberEntry mKickW eKickW))
    ∧ substringOf (escapeMarkdown eKickW.executor.tag) (renderKick mKickW eKickW)
    ∧ (∀ r, eKickW.reason = some r → r.length ≠ 0 →
        substringOf (escapeMarkdown r) (renderKick mKickW eKickW))
    ∧ ((eKickW.reason = none ∨ eKickW.reason = some "") →
        substringOf " no reason" (renderKick mKickW eKickW)) :=
  kick_resolution mKickW true [eKickW] eKickW (by decide) rfl rfl rfl rfl

end Cognitum

namespace Cognitum

/-- C3 counterexample: a member-remove whose audit-log query rejects (bot
has the permission, member complete) does not degrade to the bare left
event — the error propagates out of the correlation and nothing is
emitted. -/
theorem audit_failure_cx :
    resolveMemberRemove mFailW true = Except.error ()
    ∧ resolveMemberRemove mFailW true ≠ Except.ok (some ("left", EventArgs.member mFailW)) := by
  constructor
  · rfl
  · intro h
    rw [show resolveMemberRemove mFailW true = Except.error () from rfl] at h
    exact Except.noConfusion h

/-- C3 amended: a missing log-view permission degrades to the bare kind
(left for member-remove, the bare direction for ban and unban) and is
never retried; a member fetch that cannot be completed or an audit-log
query that rejects does not degrade — the correlation aborts with the
error and emits nothing. -/
theorem degradation_amended :
    (∀ (m : GuildMember) (f : Bool), ¬(m.incomplete = true ∧ f = false) →
      m.guild.meHasViewAuditLog = false →
      resolveMemberRemove m f = Except.ok (some ("left", EventArgs.member m)))
    ∧ (∀ (d : String) (g : Guild) (u : User), g.meHasViewAuditLog = false →
      resolveBanManagementEvent d g u = Except.ok (some (d, EventArgs.guildUser g u)))
    ∧ (∀ (m : GuildMember), m.incomplete = true →
      resolveMemberRemove m false = Except.error ())
    ∧ (∀ (m : GuildMember) (f : Bool), ¬(m.incomplete = true ∧ f = false) →
      m.guild.meHasViewAuditLog = true → m.guild.auditLogFetch = Except.error () →
      resolveMemberRemove m f = Except.error ())
    ∧ (∀ (d : String) (g : Guild) (u : User), g.meHasViewAuditLog = true →
      g.auditLogFetch = Except.error () →
      resolveBanManagementEvent d g u = Except.error ()) := by
  refine ⟨?_, ?_, ?_, ?_, ?_⟩
  · intro m f h1 h2
    unfold resolveMemberRemove
    rw [if_neg (notFetchFail h1), if_pos h2]
  · intro d g u h
    unfold resolveBanManagementEvent
    rw [if_pos h]
  · intro m h
    unfold resolveMemberRemove
    rw [if_pos (by simp [h])]
  · intro m f h1 h2 h3
    unfold resolveMemberRemove
    rw [if_neg (notFetchFail h1), if_neg (by simp [h2]), h3]
  · intro d g u h1 h2
    unfold resolveBanManagementEvent
    rw [if_neg (by simp [h1])]
    rw [h2]

/-- C3 amended witness: each degradation and abort case evaluated on a
concrete input. -/
theorem degradation_amended_witness :
    resolveMemberRemove mNoPermW true = Except.ok (some ("left", EventArgs.member mNoPermW))
    ∧ resolveBanManagementEvent "ban" gNoPermW uW
        = Except.ok (some ("ban", EventArgs.guildUser gNoPermW uW))
    ∧ resolveMemberRemove mIncW false = Except.error ()
    ∧ resolveMemberRemove mFailW true = Except.error ()
    ∧ resolveBanManagementEvent "unban" gFailW uW = Except.error () :=
  ⟨degradation_amended.1 mNoPermW true (by decide) rfl,
   degradation_amended.2.1 "ban" gNoPermW uW rfl,
   degradation_amended.2.2.1 mIncW rfl,
   degradation_amended.2.2.2.1 mFailW true (by decide) rfl rfl,
   degradation_amended.2.2.2.2 "unban" gFailW uW rfl rfl⟩

end Cognitum

namespace Cognitum

/-- C4: ban and unban resolution — without log-view permission the bare
kind is emitted immediately; with permission the log entries of the
matching ban action are filtered and searched for a target matching the
user: no match emits the bare kind, and any emitted Audit variant carries
an entry of the matching action targeting that user, with a match
guaranteeing the Audit variant is emitted. -/
theorem ban_resolution (d : String) (g : Guild) (u : User) (hd : d = "ban" ∨ d = "unban") :
    let ty := "MEMBER_BAN_" ++ (if d == "ban" then "ADD" else "REMOVE")
    (g.meHasViewAuditLog = false →
      resolveBanManagementEvent d g u = Except.ok (some (d, EventArgs.guildUser g u)))
    ∧ ∀ entries, g.meHasViewAuditLog = true → g.auditLogFetch = Except.ok entries →
        ((∀ e ∈ entries, e.action = ty → ¬(e.targetType = "USER" ∧ e.targetId = u.id)) →
            resolveBanManagementEvent d g u = Except.ok (some (d, EventArgs.guildUser g u)))
        ∧ (∀ e, resolveBanManagementEvent d g u
              = Except.ok (some (d ++ EVENT_NAME_AUDIT_POSTFIX, EventArgs.guildUserEntry g u e)) →
            e ∈ entries ∧ e.action = ty ∧ e.targetType = "USER" ∧ e.targetId = u.id)
        ∧ ((∃ e ∈ entries, e.action = ty ∧ e.targetType = "USER" ∧ e.targetId = u.id) →
            ∃ e, resolveBanManagementEvent d g u
              = Except.ok (some (d ++ EVENT_NAME_AUDIT_POSTFIX, EventArgs.guildUserEntry g u e))
              ∧ e.action = ty ∧ e.targetType = "USER" ∧ e.targetId = u.id) := by
  intro ty
  constructor
  · intro h
    unfold resolveBanManagementEvent
    rw [if_pos h]
  · intro entries hperm hlog
    have hresolve : resolveBanManagementEvent d g u =
        match (entries.filter (fun entry => entry.action == ty)).find?
            (fun entry => entry.targetType == "USER" && entry.targetId == u.id) with
        | none => Except.ok (some (d, EventArgs.guildUser g u))
        | some entry => Except.ok (some (d ++ EVENT_NAME_AUDIT_POSTFIX,
            EventArgs.guildUserEntry g u entry)) := by
      unfold resolveBanManagementEvent
      rw [if_neg (by simp [hperm]), hlog]
    refine ⟨?_, ?_, ?_⟩
    · intro hno
      rw [hresolve]
      have : (entries.filter (fun entry => entry.action == ty)).find?
          (fun entry => entry.targetType == "USER" && entry.targetId == u.id) = none := by
        rw [List.find?_eq_none]
        intro x hx
        rcases List.mem_filter.mp hx with ⟨hmem, hact⟩
        have hact : x.action = ty := by simpa using hact
        have := hno x hmem hact
        simp [Bool.and_eq_true]
        intro h1 h2
        exact this ⟨h1, h2⟩
      rw [this]
    · intro e he
      rw [hresolve] at he
      rcases hfind : (entries.filter (fun entry => entry.action == ty)).find?
          (fun entry => entry.targetType == "USER" && entry.targetId == u.id) with _ | e₀
      · rw [hfind] at he
        simp at he
      · rw [hfind] at he
        simp only [Except.ok.injEq, Option.some.injEq, Prod.mk.injEq] at he
        have he2 : e₀ = e := by
          have := he.2
          cases this
          rfl
        subst he2
        have hmem := List.mem_of_find?_eq_some hfind
        have hpred := List.find?_some hfind
        rcases List.mem_filter.mp hmem with ⟨hmem2, hact⟩
        simp [Bool.and_eq_true] at hpred hact
        exact ⟨hmem2, hact, hpred.1, hpred.2⟩
    · intro hex
      rcases hfind : (entries.filter (fun entry => entry.action == ty)).find?
          (fun entry => entry.targetType == "USER" && entry.targetId == u.id) with _ | e₀
      · exfalso
        rcases hex with ⟨e, hmem, hact, ht1, ht2⟩
        rw [List.find?_eq_none] at hfind
        exact hfind e (List.mem_filter.mpr ⟨hmem, by simp [hact]⟩) (by simp [ht1, ht2])
      · have hmem := List.mem_of_find?_eq_some hfind
        have hpred := List.find?_some hfind
        rcases List.mem_filter.mp hmem with ⟨_, hact⟩
        simp [Bool.and_eq_true] at hpred hact
        exact ⟨e₀, by rw [hresolve, hfind], hact, hpred.1, hpred.2⟩

/-- C4 witness: the ban resolution theorem evaluated on a guild lacking
permission (bare ban) and on a guild whose log holds a matching ban-add
entry (Audit variant). -/
theorem ban_resolution_witness :
    resolveBanManagementEvent "ban" gNoPermW uW
      = Except.ok (some ("ban", EventArgs.guildUser gNoPermW uW))
    ∧ ∃ e, resolveBanManagementEvent "ban" gBanW uW
        = Except.ok (some ("ban" ++ EVENT_NAME_AUDIT_POSTFIX, EventArgs.guildUserEntry gBanW uW e))
        ∧ e.action = "MEMBER_BAN_" ++ (if "ban" == "ban" then "ADD" else "REMOVE")
        ∧ e.targetType = "USER" ∧ e.targetId = uW.id := by
  have h1 := ban_resolution "ban" gNoPermW uW (Or.inl rfl)
  have h2 := ban_resolution "ban" gBanW uW (Or.inl rfl)
  exact ⟨h1.1 rfl, (h2.2 [eBanW] rfl rfl).2.2 ⟨eBanW, by decide, by decide, by decide, by decide⟩⟩

/-- C6: a member-remove resolves to the bare left kind exactly when no
enrichment points elsewhere — immediately when the bot lacks log-view
permission (hence never kick there), and otherwise precisely when no
audit entry among kick, ban-add and ban-remove targets the member. -/
theorem left_resolution (m : GuildMember) (f : Bool) (hfetch : ¬(m.incomplete = true ∧ f = false)) :
    (m.guild.meHasViewAuditLog = false →
      resolveMemberRemove m f = Except.ok (some ("left", EventArgs.member m)))
    ∧ ∀ entries, m.guild.meHasViewAuditLog = true → m.guild.auditLogFetch = Except.ok entries →
        (resolveMemberRemove m f = Except.ok (some ("left", EventArgs.member m)) ↔
          ∀ e ∈ entries,
            ¬(e.action ∈ memberRemoveActions ∧ e.targetType = "USER" ∧ e.targetId = m.id)) := by
  constructor
  · intro h
    unfold resolveMemberRemove
    rw [if_neg (notFetchFail hfetch), if_pos h]
  · intro entries hperm hlog
    have hresolve : resolveMemberRemove m f =
        match entries.find? (fun entry => memberRemoveActions.contains entry.action
            && (entry.targetType == "USER" && entry.targetId == m.id)) with
        | none => Except.ok (some ("left", EventArgs.member m))
        | some entry =>
          if entry.action == "MEMBER_KICK" then
            Except.ok (some ("kick", EventArgs.memberEntry m entry))
          else Except.ok none := by
      unfold resolveMemberRemove
      rw [if_neg (notFetchFail hfetch), if_neg (by simp [hperm]), hlog]
    rcases hfind : entries.find? (fun entry => memberRemoveActions.contains entry.action
        && (entry.targetType == "USER" && entry.targetId == m.id)) with _ | e₀
    · rw [hresolve, hfind]
      simp only [eq_self_iff_true, true_iff]
      intro e hmem
      rw [List.find?_eq_none] at hfind
      have := hfind e hmem
      simp [Bool.and_eq_true] at this
      intro hcon
      rcases hcon with ⟨h1, h2, h3⟩
      exact (this h1 h2) h3
    · rw [hresolve, hfind]
      have hmem := List.mem_of_find?_eq_some hfind
      have hpred := List.find?_some hfind
      simp [Bool.and_eq_true] at hpred
      constructor
      · intro heq
        exfalso
        by_cases hk : (e₀.action == "MEMBER_KICK") = true
        · simp [hk] at heq
        · simp [hk] at heq
      · intro hall
        exfalso
        exact hall e₀ hmem ⟨hpred.1, hpred.2.1, hpred.2.2⟩

/-- C6 witness: the left resolution theorem evaluated for a guild without
permission and for a guild with an empty audit log. -/
theorem left_resolution_witness :
    resolveMemberRemove mNoPermW true = Except.ok (some ("left", EventArgs.member mNoPermW))
    ∧ (resolveMemberRemove mEmptyW true = Except.ok (some ("left", EventArgs.member mEmptyW)) ↔
        ∀ e ∈ ([] : List AuditEntry),
          ¬(e.action ∈ memberRemoveActions ∧ e.targetType = "USER" ∧ e.targetId = mEmptyW.id)) :=
  ⟨(left_resolution mNoPermW true (by decide)).1 rfl, (left_resolution mEmptyW true (by decide)).2 [] rfl rfl⟩

/-- C7: a member-remove whose matched audit entry is a ban-add or a
ban-remove produces no event at all from the member-remove path, and that
path only ever emits left or kick — ban notices come solely from the
dedicated ban path. -/
theorem member_remove_ban_suppression :
    (∀ (m : GuildMember) (f : Bool) (entries : List AuditEntry) (e : AuditEntry),
      ¬(m.incomplete = true ∧ f = false) →
      m.guild.meHasViewAuditLog = true →
      m.guild.auditLogFetch = Except.ok entries →
      entries.find? (fun entry => memberRemoveActions.contains entry.action
          && (entry.targetType == "USER" && entry.targetId == m.id)) = some e →
      (e.action = "MEMBER_BAN_ADD" ∨ e.action = "MEMBER_BAN_REMOVE") →
      resolveMemberRemove m f = Except.ok none)
    ∧ (∀ (m : GuildMember) (f : Bool) (em : Emission),
      resolveMemberRemove m f = Except.ok (some em) → em.1 = "left" ∨ em.1 = "kick") := by
  constructor
  · intro m f entries e h1 h2 h3 h4 h5
    unfold resolveMemberRemove
    rw [if_neg (notFetchFail h1), if_neg (by simp [h2]), h3]
    simp only [h4]
    rw [if_neg (by rcases h5 with h | h <;> simp [h])]
  · intro m f em h
    unfold resolveMemberRemove at h
    split at h
    · exact absurd h (by simp)
    · split at h
      · simp at h; left; exact (congrArg Prod.fst h.symm)
      · split at h
        · exact absurd h (by simp)
        · split at h
          · simp at h; left; exact (congrArg Prod.fst h.symm)
          · split at h
            · simp at h; right; exact (congrArg Prod.fst h.symm)
            · exact absurd h (by simp)

/-- C7 witness: a member-remove whose log matches a ban-add entry emits
nothing. -/
theorem member_remove_ban_suppression_witness : resolveMemberRemove mBanW true = Except.ok none :=
  member_remove_ban_suppression.1 mBanW true [eBanW] eBanW (by decide) rfl rfl rfl (Or.inl rfl)

end Cognitum

namespace Cognitum

/-- C8: evaluation at the failing input — the unbanAudit renderer, given
an entry carrying reason spam, outputs a line with the executor but
neither the reason nor any no-reason marker, while the banAudit and kick
renderers do include the reason. -/
theorem unbanAudit_missing_reason_eval :
    eUnbanW.reason = some "spam"
    ∧ renderUnbanAudit gKickW uW eUnbanW = ":peace: [UNBAN] by Mod#1 | ID: 2 | user#0002"
    ∧ ¬ substringOf "spam" (renderUnbanAudit gKickW uW eUnbanW)
    ∧ ¬ substringOf "no reason" (renderUnbanAudit gKickW uW eUnbanW)
    ∧ substringOf "spam" (renderBanAudit gKickW uW eUnbanW)
    ∧ substringOf "spam" (renderKick mKickW eKickW) := by
  decide

/-- Helper: escaping a character list always yields the escaped shape. -/
lemma escapeChars_escapedForm (l : List Char) : EscapedForm (escapeChars l) := by
  induction l with
  | nil => exact EscapedForm.nil
  | cons c cs ih =>
    by_cases hc : c ∈ markdownControlChars
    · simpa [escapeChars, escapeChar, hc] using EscapedForm.escaped c (escapeChars cs) hc ih
    · simpa [escapeChars, escapeChar, hc] using EscapedForm.plain c (escapeChars cs) hc ih

/-- Helper: the character-level escaping is injective. -/
lemma escapeChars_inj : ∀ l₁ l₂ : List Char, escapeChars l₁ = escapeChars l₂ → l₁ = l₂ := by
  intro l₁
  induction l₁ with
  | nil =>
    intro l₂ h
    cases l₂ with
    | nil => rfl
    | cons b bs =>
      by_cases hb : b ∈ markdownControlChars <;> simp [escapeChars, escapeChar, hb] at h
  | cons a as ih =>
    intro l₂ h
    cases l₂ with
    | nil =>
      by_cases ha : a ∈ markdownControlChars <;> simp [escapeChars, escapeChar, ha] at h
    | cons b bs =>
      by_cases ha : a ∈ markdownControlChars <;> by_cases hb : b ∈ markdownControlChars
      · simp [escapeChars, escapeChar, ha, hb] at h
        rw [h.1, ih bs h.2]
      · simp [escapeChars, escapeChar, ha, hb] at h
        exact absurd (h.1 ▸ (by decide : ('\\' : Char) ∈ markdownControlChars)) hb
      · simp [escapeChars, escapeChar, ha, hb] at h
        exact absurd (h.1.symm ▸ (by decide : ('\\' : Char) ∈ markdownControlChars)) ha
      · simp [escapeChars, escapeChar, ha, hb] at h
        rw [h.1, ih bs h.2]

/-- Helper: escapeMarkdown is injective on strings. -/
lemma escapeMarkdown_injective : Function.Injective escapeMarkdown := by
  intro s t h
  have hdata : escapeChars s.data = escapeChars t.data := congrArg String.data h
  have := escapeChars_inj s.data t.data hdata
  cases s; cases t; exact congrArg String.mk this

/-- C9: escaping contract of the renderers — escapeMarkdown is injective,
its output is always in escaped shape (every markdown control character
sits as the payload of a backslash pair, so a name such as *bold* renders
literally), and every renderer embeds each user-controlled field (tags,
nicknames or usernames, reasons) through escapeMarkdown. -/
theorem escaping_contract :
    Function.Injective escapeMarkdown
    ∧ (∀ s : String, EscapedForm (escapeMarkdown s).data)
    ∧ escapeMarkdown "*bold*" = "\\*bold\\*"
    ∧ (∀ m : GuildMember, substringOf (escapeMarkdown m.user.tag) (renderJoin m))
    ∧ (∀ m : GuildMember, substringOf (escapeMarkdown m.user.tag) (renderLeft m))
    ∧ (∀ p c : GuildMember,
        substringOf (escapeMarkdown (p.nickname.getD p.user.username)) (renderRename p c)
        ∧ substringOf (escapeMarkdown (c.nickname.getD c.user.username)) (renderRename p c))
    ∧ (∀ (g : Guild) (u : User), substringOf (escapeMarkdown u.tag) (renderBan g u))
    ∧ (∀ (g : Guild) (u : User) (e : AuditEntry),
        substringOf (escapeMarkdown e.executor.tag) (renderBanAudit g u e)
        ∧ substringOf (escapeMarkdown u.tag) (renderBanAudit g u e)
        ∧ ∀ r, e.reason = some r → r.length ≠ 0 →
            substringOf (escapeMarkdown r) (renderBanAudit g u e))
    ∧ (∀ (g : Guild) (u : User), substringOf (escapeMarkdown u.tag) (renderUnban g u))
    ∧ (∀ (g : Guild) (u : User) (e : AuditEntry),
        substringOf (escapeMarkdown e.executor.tag) (renderUnbanAudit g u e)
        ∧ substringOf (escapeMarkdown u.tag) (renderUnbanAudit g u e))
    ∧ (∀ (m : GuildMember) (e : AuditEntry),
        substringOf (escapeMarkdown e.executor.tag) (renderKick m e)
        ∧ substringOf (escapeMarkdown m.user.tag) (renderKick m e)
        ∧ ∀ r, e.reason = some r → r.length ≠ 0 →
            substringOf (escapeMarkdown r) (renderKick m e)) := by
  refine ⟨escapeMarkdown_injective, ?_, by decide, ?_, ?_, ?_, ?_, ?_, ?_, ?_, ?_⟩
  · intro s
    exact escapeChars_escapedForm s.data
  · intro m
    exact substringOf_intro2 _ (":inbox_tray: [JOIN] | "
      ++ escapeMarkdown ("ID: " ++ toString m.id) ++ " | ") _
      (by simp only [renderJoin, String.append_assoc])
  · intro m
    exact substringOf_intro2 _ (":outbox_tray: [LEAVE] | "
      ++ escapeMarkdown ("ID: " ++ toString m.id) ++ " | ") _
      (by simp only [renderLeft, String.append_assoc])
  · intro p c
    constructor
    · exact substringOf_intro _ (":abc: [RENAME] | "
        ++ escapeMarkdown ("ID: " ++ toString p.id) ++ " | ")
        (" → " ++ escapeMarkdown (c.nickname.getD c.user.username)) _
        (by simp only [renderRename, String.append_assoc])
    · exact substringOf_intro2 _ (":abc: [RENAME] | "
        ++ escapeMarkdown ("ID: " ++ toString p.id) ++ " | "
        ++ escapeMarkdown (p.nickname.getD p.user.username) ++ " → ") _
        (by simp only [renderRename, String.append_assoc])
  · intro g u
    exact substringOf_intro2 _ (":hammer: [BAN] | "
      ++ escapeMarkdown ("ID: " ++ toString u.id) ++ " | ") _
      (by simp only [renderBan, String.append_assoc])
  · intro g u e
    refine ⟨?_, ?_, ?_⟩
    · exact substringOf_intro _ ":hammer: [BAN] by "
        (" with" ++ reasonClause e.reason ++ " | " ++ escapeMarkdown ("ID: " ++ toString u.id)
          ++ " | " ++ escapeMarkdown u.tag) _
        (by simp only [renderBanAudit, String.append_assoc])
    · exact substringOf_intro2 _ (":hammer: [BAN] by " ++ escapeMarkdown e.executor.tag
        ++ " with" ++ reasonClause e.reason ++ " | " ++ escapeMarkdown ("ID: " ++ toString u.id)
        ++ " | ") _
        (by simp only [renderBanAudit, String.append_assoc])
    · intro r hr hlen
      refine substringOf_intro _ (":hammer: [BAN] by " ++ escapeMarkdown e.executor.tag
          ++ " with" ++ " reason ")
        (" | " ++ escapeMarkdown ("ID: " ++ toString u.id) ++ " | " ++ escapeMarkdown u.tag) _ ?_
      simp only [renderBanAudit, reasonClause, hr]
      rw [if_pos hlen]
      simp only [String.append_assoc]
  · intro g u
    exact substringOf_intro2 _ (":peace: [UNBAN] | "
      ++ escapeMarkdown ("ID: " ++ toString u.id) ++ " | ") _
      (by simp only [renderUnban, String.append_assoc])
  · intro g u e
    constructor
    · exact substringOf_intro _ ":peace: [UNBAN] by "
        (" | " ++ escapeMarkdown ("ID: " ++ toString u.id) ++ " | " ++ escapeMarkdown u.tag) _
        (by simp only [renderUnbanAudit, String.append_assoc])
    · exact substringOf_intro2 _ (":peace: [UNBAN] by " ++ escapeMarkdown e.executor.tag
        ++ " | " ++ escapeMarkdown ("ID: " ++ toString u.id) ++ " | ") _
        (by simp only [renderUnbanAudit, String.append_assoc])
  · intro m e
    refine ⟨?_, ?_, ?_⟩
    · exact substringOf_intro _ ":boot: [KICK] by "
        (" with" ++ reasonClause e.reason ++ " | " ++ escapeMarkdown ("ID: " ++ toString m.id)
          ++ " " ++ "| " ++ escapeMarkdown m.user.tag) _
        (by simp only [renderKick, String.append_assoc])
    · exact substringOf_intro2 _ (":boot: [KICK] by " ++ escapeMarkdown e.executor.tag
        ++ " with" ++ reasonClause e.reason ++ " | " ++ escapeMarkdown ("ID: " ++ toString m.id)
        ++ " " ++ "| ") _
        (by simp only [renderKick, String.append_assoc])
    · intro r hr hlen
      refine substringOf_intro _ (":boot: [KICK] by " ++ escapeMarkdown e.executor.tag
          ++ " with" ++ " reason ")
        (" | " ++ escapeMarkdown ("ID: " ++ toString m.id) ++ " " ++ "| "
          ++ escapeMarkdown m.user.tag) _ ?_
      simp only [renderKick, reasonClause, hr]
      rw [if_pos hlen]
      simp only [String.append_assoc]

/-- C9 witness: the renderer containments of the escaping contract
evaluated at a concrete kick entry with reason spam. -/
theorem escaping_contract_witness :
    substringOf (escapeMarkdown "spam") (renderKick mKickW eKickW)
    ∧ substringOf (escapeMarkdown uW.tag) (renderJoin mKickW) :=
  ⟨(escaping_contract.2.2.2.2.2.2.2.2.2.2 mKickW eKickW).2.2 "spam" rfl (by decide),
   escaping_contract.2.2.2.1 mKickW⟩

/-- C10: dispatch totality — a renderer entry exists exactly for the
eight registered event names, a guild-resolver entry exists for exactly
the same names, every pipeline event has an applicable renderer and an
applicable resolver returning its originating guild, and every emission
the normalizer or correlator can produce is one of the eight pipeline
events. -/
theorem dispatch_tables_total :
    (∀ n : String, (lookupHandler eventMessageRenderer n).isSome ↔ n ∈ registeredEventNames)
    ∧ (∀ n : String, (lookupHandler guildResolver n).isSome ↔ n ∈ registeredEventNames)
    ∧ (∀ ev : PipelineEvent,
        ev.name ∈ registeredEventNames
        ∧ (∃ render, lookupHandler eventMessageRenderer ev.name = some render
            ∧ ∃ line, render ev.args = some line)
        ∧ (∃ resolve, lookupHandler guildResolver ev.name = some resolve
            ∧ resolve ev.args = some ev.originGuild))
    ∧ (∀ (m : GuildMember) (f : Bool) (em : Emission),
        resolveMemberRemove m f = Except.ok (some em) →
        ∃ ev : PipelineEvent, em = (ev.name, ev.args))
    ∧ (∀ (d : String) (g : Guild) (u : User) (em : Emission), (d = "ban" ∨ d = "unban") →
        resolveBanManagementEvent d g u = Except.ok (some em) →
        ∃ ev : PipelineEvent, em = (ev.name, ev.args))
    ∧ (∀ (p c : GuildMember) (em : Emission),
        resolveMemberUpdate p c = some em →
        ∃ ev : PipelineEvent, em = (ev.name, ev.args)) := by
  refine ⟨?_, ?_, ?_, ?_, ?_, ?_⟩
  · intro n
    simp [lookupHandler, eventMessageRenderer, registeredEventNames, List.find?_isSome]
    tauto
  · intro n
    simp [lookupHandler, guildResolver, registeredEventNames, eventMessageRenderer,
      List.find?_isSome]
    tauto
  · intro ev
    have hmem : ev.name ∈ registeredEventNames := by
      cases ev <;> simp [PipelineEvent.name, registeredEventNames, eventMessageRenderer]
    refine ⟨hmem, ?_, ?_⟩
    · cases ev <;> exact ⟨_, rfl, _, rfl⟩
    · cases ev <;> exact ⟨_, rfl, rfl⟩
  · intro m f em h
    unfold resolveMemberRemove at h
    split at h
    · exact absurd h (by simp)
    · split at h
      · simp only [Except.ok.injEq, Option.some.injEq] at h
        exact ⟨PipelineEvent.left m, h.symm⟩
      · split at h
        · exact absurd h (by simp)
        · split at h
          · simp only [Except.ok.injEq, Option.some.injEq] at h
            exact ⟨PipelineEvent.left m, h.symm⟩
          · split at h
            · simp only [Except.ok.injEq, Option.some.injEq] at h
              rename_i entry _ _
              exact ⟨PipelineEvent.kick m entry, h.symm⟩
            · exact absurd h (by simp)
  · intro d g u em hd h
    by_cases hperm : g.meHasViewAuditLog = false
    · unfold resolveBanManagementEvent at h
      rw [if_pos hperm] at h
      simp only [Except.ok.injEq, Option.some.injEq] at h
      rcases hd with hd | hd <;> subst hd
      · exact ⟨PipelineEvent.ban g u, h.symm⟩
      · exact ⟨PipelineEvent.unban g u, h.symm⟩
    · rcases hlog : g.auditLogFetch with e | entries
      · unfold resolveBanManagementEvent at h
        rw [if_neg hperm, hlog] at h
        exact absurd h (by simp)
      · have hresolve : resolveBanManagementEvent d g u =
            match (entries.filter (fun entry => entry.action ==
                ("MEMBER_BAN_" ++ (if d == "ban" then "ADD" else "REMOVE")))).find?
                (fun entry => entry.targetType == "USER" && entry.targetId == u.id) with
            | none => Except.ok (some (d, EventArgs.guildUser g u))
            | some entry => Except.ok (some (d ++ EVENT_NAME_AUDIT_POSTFIX,
                EventArgs.guildUserEntry g u entry)) := by
          unfold resolveBanManagementEvent
          rw [if_neg hperm, hlog]
        rw [hresolve] at h
        rcases hfind : (entries.filter (fun entry => entry.action ==
            ("MEMBER_BAN_" ++ (if d == "ban" then "ADD" else "REMOVE")))).find?
            (fun entry => entry.targetType == "USER" && entry.targetId == u.id) with _ | entry
        · rw [hfind] at h
          simp only [Except.ok.injEq, Option.some.injEq] at h
          rcases hd with hd | hd <;> subst hd
          · exact ⟨PipelineEvent.ban g u, h.symm⟩
          · exact ⟨PipelineEvent.unban g u, h.symm⟩
        · rw [hfind] at h
          simp only [Except.ok.injEq, Option.some.injEq] at h
          rcases hd with hd | hd <;> subst hd
          · refine ⟨PipelineEvent.banAudit g u entry, ?_⟩
            rw [← h]
            simp [PipelineEvent.name, PipelineEvent.args, EVENT_NAME_AUDIT_POSTFIX]
          · refine ⟨PipelineEvent.unbanAudit g u entry, ?_⟩
            rw [← h]
            simp [PipelineEvent.name, PipelineEvent.args, EVENT_NAME_AUDIT_POSTFIX]
  · intro p c em h
    unfold resolveMemberUpdate at h
    split at h
    · simp only [Option.some.injEq] at h
      exact ⟨PipelineEvent.rename p c, h.symm⟩
    · exact absurd h (by simp)

/-- C10 witness: the dispatch totality theorem evaluated at the kick key
and at a concrete left emission. -/
theorem dispatch_tables_total_witness :
    (lookupHandler eventMessageRenderer "kick").isSome
    ∧ (∃ ev : PipelineEvent, (("left", EventArgs.member mNoPermW) : Emission) = (ev.name, ev.args)) :=
  ⟨(dispatch_tables_total.1 "kick").mpr (by decide),
   dispatch_tables_total.2.2.2.1 mNoPermW true ("left", EventArgs.member mNoPermW) rfl⟩

/-- Helper: the full gating behaviour of handleEvent for an event name
with an applicable resolver and renderer whose collapsed key routes to
the public channel. -/
lemma handleEvent_gating_core (n : String) (a : EventArgs) (cfg : GuildConfig) (g : Guild)
    (resolve : EventArgs → Option Guild) (render : EventArgs → Option String) (line : String)
    (h1 : lookupHandler guildResolver n = some resolve)
    (h2 : resolve a = some g)
    (h3 : lookupHandler eventMessageRenderer n = some render)
    (h4 : render a = some line)
    (h5 : collapseSettingsKey n ∉ privateChannelEventNames) :
    (handleEvent n a cfg = Except.ok none
      ∨ ∃ ch msg, handleEvent n a cfg = Except.ok (some (ch, msg)))
    ∧ ((∃ ch msg, handleEvent n a cfg = Except.ok (some (ch, msg))) ↔
        (cfg.logs_enabled = true
          ∧ cfg.eventFlag (collapseSettingsKey n) = some true
          ∧ cfg.logs_public_channel ≠ none
          ∧ ∃ ch, g.channels.find? (fun c => some c.id == cfg.logs_public_channel) = some ch
              ∧ ch.type = "text")) := by
  have hrc : resolveChannel n a cfg =
      (if cfg.logs_enabled = false ∨ cfg.eventFlag (collapseSettingsKey n) ≠ some true
          ∨ cfg.logs_public_channel = none then
        Except.ok none
      else
        Except.ok (g.channels.find? (fun ch => some ch.id == cfg.logs_public_channel))) := by
    simp only [resolveChannel, h1, h2]
    rw [if_neg h5]
    simp
  by_cases hrej : (cfg.logs_enabled = false ∨ cfg.eventFlag (collapseSettingsKey n) ≠ some true
      ∨ cfg.logs_public_channel = none)
  · rw [if_pos hrej] at hrc
    have hh : handleEvent n a cfg = Except.ok none := by
      unfold handleEvent
      rw [hrc]
    refine ⟨Or.inl hh, ?_⟩
    rw [hh]
    constructor
    · rintro ⟨ch, msg, hcm⟩
      exact absurd hcm (by simp)
    · rintro ⟨he, hf, hc, _⟩
      rcases hrej with hr | hr | hr
      · rw [he] at hr; exact Bool.noConfusion hr
      · exact absurd hf hr
      · exact absurd hr hc
  · rw [if_neg hrej] at hrc
    push_neg at hrej
    obtain ⟨hen, hflag, hchan⟩ := hrej
    have hen' : cfg.logs_enabled = true := by
      cases hcase : cfg.logs_enabled
      · exact absurd hcase hen
      · rfl
    rcases hfind : g.channels.find? (fun ch => some ch.id == cfg.logs_public_channel)
        with _ | ch
    · rw [hfind] at hrc
      have hh : handleEvent n a cfg = Except.ok none := by
        unfold handleEvent
        rw [hrc]
      refine ⟨Or.inl hh, ?_⟩
      rw [hh]
      constructor
      · rintro ⟨ch, msg, hcm⟩
        exact absurd hcm (by simp)
      · rintro ⟨_, _, _, ch, hch, _⟩
        rw [hfind] at hch
        exact Option.noConfusion hch
    · rw [hfind] at hrc
      have hh : handleEvent n a cfg =
          (if ch.type ≠ "text" then Except.ok none else Except.ok (some (ch, line))) := by
        unfold handleEvent
        rw [hrc]
        show (match (lookupHandler eventMessageRenderer n).bind (fun render => render a) with
          | none => _ | some logMessage => _) = _
        rw [h3]
        show (match render a with | none => _ | some logMessage => _) = _
        rw [h4]
      by_cases ht : ch.type = "text"
      · rw [if_neg (by simpa using ht)] at hh
        refine ⟨Or.inr ⟨ch, line, hh⟩, ?_⟩
        constructor
        · intro _
          exact ⟨hen', hflag, hchan, ch, hfind, ht⟩
        · intro _
          exact ⟨ch, line, hh⟩
      · rw [if_pos (by simpa using ht)] at hh
        refine ⟨Or.inl hh, ?_⟩
        rw [hh]
        constructor
        · rintro ⟨ch₂, msg, hcm⟩
          exact absurd hcm (by simp)
        · rintro ⟨_, _, _, ch₂, hch₂, ht₂⟩
          rw [hfind] at hch₂
          injection hch₂ with hch₂
          exact absurd (hch₂ ▸ ht₂) ht

/-- C1: delivery gating — for every pipeline event and configuration the
handler never raises, it sends exactly when the master flag is on, the
collapsed event flag is on, a public channel is configured, the
identifier resolves to a live channel of the guild and that channel is a
text channel, and when any condition fails it quietly produces nothing. -/
theorem delivery_gating (ev : PipelineEvent) (cfg : GuildConfig) :
    handleEvent ev.name ev.args cfg ≠ Except.error ()
    ∧ ((∃ ch msg, handleEvent ev.name ev.args cfg = Except.ok (some (ch, msg))) ↔
        deliveryConditions ev cfg)
    ∧ (¬ deliveryConditions ev cfg → handleEvent ev.name ev.args cfg = Except.ok none) := by
  have key :
      (handleEvent ev.name ev.args cfg = Except.ok none
        ∨ ∃ ch msg, handleEvent ev.name ev.args cfg = Except.ok (some (ch, msg)))
      ∧ ((∃ ch msg, handleEvent ev.name ev.args cfg = Except.ok (some (ch, msg))) ↔
          (cfg.logs_enabled = true
            ∧ cfg.eventFlag (collapseSettingsKey ev.name) = some true
            ∧ cfg.logs_public_channel ≠ none
            ∧ ∃ ch, ev.originGuild.channels.find?
                  (fun c => some c.id == cfg.logs_public_channel) = some ch
                ∧ ch.type = "text")) := by
    cases ev with
    | join m =>
      exact handleEvent_gating_core _ _ cfg m.guild _ _ (renderJoin m) rfl rfl rfl rfl
        (show collapseSettingsKey "join" ∉ privateChannelEventNames by decide)
    | left m =>
      exact handleEvent_gating_core _ _ cfg m.guild _ _ (renderLeft m) rfl rfl rfl rfl
        (show collapseSettingsKey "left" ∉ privateChannelEventNames by decide)
    | rename p c =>
      exact handleEvent_gating_core _ _ cfg p.guild _ _ (renderRename p c) rfl rfl rfl rfl
        (show collapseSettingsKey "rename" ∉ privateChannelEventNames by decide)
    | kick m e =>
      exact handleEvent_gating_core _ _ cfg m.guild _ _ (renderKick m e) rfl rfl rfl rfl
        (show collapseSettingsKey "kick" ∉ privateChannelEventNames by decide)
    | ban g u =>
      exact handleEvent_gating_core _ _ cfg g _ _ (renderBan g u) rfl rfl rfl rfl
        (show collapseSettingsKey "ban" ∉ privateChannelEventNames by decide)
    | banAudit g u e =>
      exact handleEvent_gating_core _ _ cfg g _ _ (renderBanAudit g u e) rfl rfl rfl rfl
        (show collapseSettingsKey "banAudit" ∉ privateChannelEventNames by decide)
    | unban g u =>
      exact handleEvent_gating_core _ _ cfg g _ _ (renderUnban g u) rfl rfl rfl rfl
        (show collapseSettingsKey "unban" ∉ privateChannelEventNames by decide)
    | unbanAudit g u e =>
      exact handleEvent_gating_core _ _ cfg g _ _ (renderUnbanAudit g u e) rfl rfl rfl rfl
        (show collapseSettingsKey "unbanAudit" ∉ privateChannelEventNames by decide)
  refine ⟨?_, key.2, ?_⟩
  · rcases key.1 with h | ⟨ch, msg, h⟩ <;> rw [h] <;> simp
  · intro hnc
    rcases key.1 with h | hex
    · exact h
    · exact absurd (key.2.mp hex) hnc

/-- C1 witness: the delivery gating theorem evaluated on a configuration
with everything enabled, where the join notice is delivered. -/
theorem delivery_gating_witness :
    handleEvent "join" (EventArgs.member mKickW) cfgAllOnW ≠ Except.error ()
    ∧ ∃ ch msg, handleEvent "join" (EventArgs.member mKickW) cfgAllOnW
        = Except.ok (some (ch, msg)) := by
  have h := delivery_gating (PipelineEvent.join mKickW) cfgAllOnW
  exact ⟨h.1, h.2.1.mpr ⟨rfl, by decide, by decide, chW, by decide, rfl⟩⟩

end Cognitum
